import Mathlib

/-!
Shallow embedding of the privacy-preserving robotics behavioral-analytics
module: the pattern-memory store (`pattern_memory_demo.py`) and the
ephemeral identity registry (`ephemeral_identity_demo.py`).

Python dictionaries are modelled as insertion-ordered association lists
(`List (String × α)`): lookup finds the first binding, updating an existing
key keeps its position, inserting a new key appends at the end — exactly the
semantics of Python 3.7+ `dict`.  Floating point numbers are modelled as
real numbers; timestamps of the identity registry are rationals measured in
seconds, since only floor-of-days arithmetic is performed on them.
-/

/-- First value bound to key `k` in an association list (Python `d.get(k)`). -/
def lookupKey {α : Type} (k : String) : List (String × α) → Option α
  | [] => none
  | (k', v) :: rest => if k = k' then some v else lookupKey k rest

/-- Replace the value of the first binding of `k`, keeping its position
(Python `d[k] = v` when `k` already present). -/
def setKey {α : Type} (k : String) (v : α) : List (String × α) → List (String × α)
  | [] => []
  | (k', v') :: rest => if k = k' then (k', v) :: rest else (k', v') :: setKey k v rest

/-- Apply `f` to the value of the first binding of `k`, in place. -/
def updateKey {α : Type} (k : String) (f : α → α) : List (String × α) → List (String × α)
  | [] => []
  | (k', v') :: rest => if k = k' then (k', f v') :: rest else (k', v') :: updateKey k f rest

/-- Apply `f` to every value of the association list (Python loop writing
every key of the dict back). -/
def mapVals {α : Type} (f : α → α) : List (String × α) → List (String × α)
  | [] => []
  | (k', v') :: rest => (k', f v') :: mapVals f rest

/-- Sum of all values of the association list (Python `sum(d.values())`). -/
def sumVals : List (String × ℝ) → ℝ
  | [] => 0
  | (_, v) :: rest => v + sumVals rest

/-! ### Pattern memory data model (`pattern_memory_demo.py`) -/

/-- `TemporalPattern` dataclass.  `observation_count` is declared `int` in the
source but becomes a float after the first decay (`count *= 0.95`), so it is
a real number here.  `last_updated` (a wall-clock timestamp that is written
but never read by any modelled operation) is omitted. -/
structure TemporalPattern where
  active_hours_mean : ℝ := 12.0
  active_hours_std : ℝ := 4.0
  typical_duration_mean : ℝ := 0.0
  typical_duration_std : ℝ := 0.0
  frequency_per_day : ℝ := 0.0
  pattern_stability : ℝ := 0.0
  observation_count : ℝ := 0

/-- `SpatialPattern` dataclass. -/
structure SpatialPattern where
  zone_frequencies : List (String × ℝ) := []
  movement_speed_mean : ℝ := 0.0
  movement_speed_std : ℝ := 0.0
  zone_transitions : List ((String × String) × ℝ) := []

/-- `ActivityPattern` dataclass. -/
structure ActivityPattern where
  activity_type : String
  temporal : TemporalPattern := {}
  spatial : SpatialPattern := {}
  success_rate : ℝ := 0.0
  typical_assistance_needed : ℝ := 0.0

/-- `PatternMemory` store: per-activity patterns, decay factor, and the
never-decayed global observation counter. -/
structure PatternMemory where
  patterns : List (String × ActivityPattern) := []
  decay_factor : ℝ := 0.95
  total_observations : ℕ := 0

/-- `PatternMemory._update_temporal_pattern`: increment the observation
count, then EMA-update the (mean, std) accumulators for hour and duration
with learning rate `alpha = 0.2` (first sample keyed on the incremented
count being 1), then set `pattern_stability = min(1, count/20)`. -/
noncomputable def update_temporal_pattern (t : TemporalPattern) (hour duration : ℝ) :
    TemporalPattern :=
  let alpha : ℝ := 0.2
  let count := t.observation_count + 1
  let hour_pair : ℝ × ℝ :=
    if count = 1 then (hour, 0)
    else
      (alpha * hour + (1 - alpha) * t.active_hours_mean,
       Real.sqrt (alpha * (hour - t.active_hours_mean) ^ 2 +
         (1 - alpha) * t.active_hours_std ^ 2))
  let dur_pair : ℝ × ℝ :=
    if count = 1 then (duration, 0)
    else
      (alpha * duration + (1 - alpha) * t.typical_duration_mean,
       Real.sqrt (alpha * (duration - t.typical_duration_mean) ^ 2 +
         (1 - alpha) * t.typical_duration_std ^ 2))
  { t with
    observation_count := count
    active_hours_mean := hour_pair.1
    active_hours_std := hour_pair.2
    typical_duration_mean := dur_pair.1
    typical_duration_std := dur_pair.2
    pattern_stability := min 1 (count / 20) }

/-- `PatternMemory._update_spatial_pattern`: bump the raw count of `zone`
(inserting 1.0 if absent), renormalize all zone frequencies by their total,
then EMA-update the movement-speed (mean, std) accumulator, whose
"first sample" test is `movement_speed_mean == 0`. -/
noncomputable def update_spatial_pattern (s : SpatialPattern) (zone : String) (speed : ℝ) :
    SpatialPattern :=
  let alpha : ℝ := 0.2
  let freqs_raw :=
    match lookupKey zone s.zone_frequencies with
    | none => s.zone_frequencies ++ [(zone, 1)]
    | some v => setKey zone (v + 1) s.zone_frequencies
  let total := sumVals freqs_raw
  let freqs := mapVals (fun v => v / total) freqs_raw
  let speed_pair : ℝ × ℝ :=
    if s.movement_speed_mean = 0 then (speed, 0)
    else
      (alpha * speed + (1 - alpha) * s.movement_speed_mean,
       Real.sqrt (alpha * (speed - s.movement_speed_mean) ^ 2 +
         (1 - alpha) * s.movement_speed_std ^ 2))
  { s with
    zone_frequencies := freqs
    movement_speed_mean := speed_pair.1
    movement_speed_std := speed_pair.2 }

/-- Decay of one stored pattern inside `PatternMemory._apply_decay`:
multiply `observation_count`, `pattern_stability` and every zone frequency
by the decay factor. -/
def decayPattern (d : ℝ) (p : ActivityPattern) : ActivityPattern :=
  { p with
    temporal := { p.temporal with
      observation_count := p.temporal.observation_count * d
      pattern_stability := p.temporal.pattern_stability * d }
    spatial := { p.spatial with
      zone_frequencies := mapVals (fun v => v * d) p.spatial.zone_frequencies } }

/-- `PatternMemory.observe_activity`: get or lazily create the pattern for
`activity_type`, update its temporal and spatial sub-patterns, apply global
decay to every stored pattern (`_apply_decay`), and increment
`total_observations`.  No input validation is performed. -/
noncomputable def observe_activity (m : PatternMemory) (activity_type : String)
    (hour duration_minutes : ℝ) (zone : String) (movement_speed : ℝ) : PatternMemory :=
  let patterns0 :=
    match lookupKey activity_type m.patterns with
    | none => m.patterns ++ [(activity_type, { activity_type := activity_type })]
    | some _ => m.patterns
  let patterns1 := updateKey activity_type (fun p =>
    { p with
      temporal := update_temporal_pattern p.temporal hour duration_minutes
      spatial := update_spatial_pattern p.spatial zone movement_speed }) patterns0
  { patterns := mapVals (decayPattern m.decay_factor) patterns1
    decay_factor := m.decay_factor
    total_observations := m.total_observations + 1 }

/-- `PatternMemory.get_pattern`. -/
def get_pattern (m : PatternMemory) (activity_type : String) : Option ActivityPattern :=
  lookupKey activity_type m.patterns

/-- `PatternMemory.detect_anomaly`: insufficient-data sentinel `(false, 0)`
when the pattern is absent or its decayed observation count is below 3;
otherwise the maximum of the hour and duration z-scores (each 0 when its
standard deviation is not positive), flagged as anomalous above 2. -/
noncomputable def detect_anomaly (m : PatternMemory) (activity_type : String)
    (current_hour current_duration : ℝ) : Bool × ℝ :=
  match get_pattern m activity_type with
  | none => (false, 0)
  | some p =>
    if p.temporal.observation_count < 3 then (false, 0)
    else
      let hour_zscore :=
        if p.temporal.active_hours_std > 0 then
          |current_hour - p.temporal.active_hours_mean| / p.temporal.active_hours_std
        else 0
      let duration_zscore :=
        if p.temporal.typical_duration_std > 0 then
          |current_duration - p.temporal.typical_duration_mean| /
            p.temporal.typical_duration_std
        else 0
      let deviation := max hour_zscore duration_zscore
      (decide (deviation > 2), deviation)

/-! ### Ephemeral identity registry data model (`ephemeral_identity_demo.py`) -/

/-- `BehavioralFeatures` dataclass: two numeric features and three
categorical features. -/
structure BehavioralFeatures where
  movement_speed : ℝ
  height_estimate : ℝ
  activity_time : String
  interaction_zone : String
  movement_pattern : String

/-- `time_encoding` table inside `BehavioralFeatures.to_vector`
(`dict.get(key, 0)` semantics: unknown strings encode to 0). -/
def time_encoding (s : String) : ℝ :=
  if s = "morning" then 0 else if s = "afternoon" then 1
  else if s = "evening" then 2 else if s = "night" then 3 else 0

/-- `zone_encoding` table inside `BehavioralFeatures.to_vector`. -/
def zone_encoding (s : String) : ℝ :=
  if s = "kitchen" then 0 else if s = "living_room" then 1
  else if s = "bedroom" then 2 else if s = "bathroom" then 3 else 0

/-- `pattern_encoding` table inside `BehavioralFeatures.to_vector`. -/
def pattern_encoding (s : String) : ℝ :=
  if s = "steady" then 0 else if s = "variable" then 1
  else if s = "stationary" then 2 else 0

/-- `BehavioralFeatures.to_vector`: the 5-dimensional numeric encoding. -/
def BehavioralFeatures.to_vector (f : BehavioralFeatures) : Fin 5 → ℝ :=
  ![f.movement_speed, f.height_estimate, time_encoding f.activity_time,
    zone_encoding f.interaction_zone, pattern_encoding f.movement_pattern]

/-- The per-dimension weights of `calculate_similarity`. -/
def similarity_weights : Fin 5 → ℝ := ![2.0, 2.0, 1.0, 1.0, 1.0]

/-- `EphemeralIdentityManager.calculate_similarity`: Euclidean norm of the
weighted difference of the two encoded vectors, converted to a similarity
by `max(0, 1 - distance/10)`. -/
noncomputable def calculate_similarity (features1 features2 : BehavioralFeatures) : ℝ :=
  let vec1 := features1.to_vector
  let vec2 := features2.to_vector
  let distance :=
    Real.sqrt (∑ i : Fin 5, ((vec1 i - vec2 i) * similarity_weights i) ^ 2)
  max 0 (1 - distance / 10.0)

/-- `EntityProfile` dataclass.  Timestamps are rationals in seconds;
`observation_count` is a Python `int` and stays a natural number (it is
never decayed); `confidence` is a float. -/
structure EntityProfile where
  entity_id : String
  first_observed : ℚ
  last_seen : ℚ
  observation_count : ℕ := 0
  typical_features : Option BehavioralFeatures := none
  confidence : ℝ := 0.0

/-- Python `(now - last).days`: floor of the elapsed seconds divided by
86400 (`timedelta.days` floor-truncates, also for negative spans). -/
def elapsed_days (now last : ℚ) : ℤ := ⌊(now - last) / 86400⌋

/-- `EntityProfile.is_expired`: the floor-truncated number of days of
inactivity strictly exceeds `expiry_days`. -/
def EntityProfile.is_expired (p : EntityProfile) (now : ℚ) (expiry_days : ℤ) : Bool :=
  decide (elapsed_days now p.last_seen > expiry_days)

/-- `EntityProfile.update`: refresh `last_seen`, increment the observation
count, recompute `confidence = min(1, count/10)`, and EMA-update
(`alpha = 0.3`) only the `movement_speed` and `height_estimate` components
of `typical_features` (set on first update if absent). -/
noncomputable def EntityProfile.update (p : EntityProfile) (features : BehavioralFeatures)
    (now : ℚ) : EntityProfile :=
  let count := p.observation_count + 1
  let tf :=
    match p.typical_features with
    | none => some features
    | some old =>
      let alpha : ℝ := 0.3
      some { old with
        movement_speed := alpha * features.movement_speed + (1 - alpha) * old.movement_speed
        height_estimate :=
          alpha * features.height_estimate + (1 - alpha) * old.height_estimate }
  { p with
    last_seen := now
    observation_count := count
    confidence := min 1 ((count : ℝ) / 10.0)
    typical_features := tf }

/-- `EphemeralIdentityManager` state: insertion-ordered entity map and the
two construction-time configuration values. -/
structure EphemeralIdentityManager where
  entities : List (String × EntityProfile) := []
  similarity_threshold : ℝ := 0.85
  expiry_days : ℤ := 30

/-- The loop of `find_matching_entity`: walk the entity list carrying the
best match so far (`best_match_id`, initially `none`) and its similarity
(`best_similarity`, initially `0.0`), skipping expired profiles and those
without `typical_features`, and replacing the best candidate only when the
similarity strictly exceeds both the running best and the threshold. -/
noncomputable def scan_entities (thr : ℝ) (ed : ℤ) (now : ℚ) (features : BehavioralFeatures) :
    List (String × EntityProfile) → Option String → ℝ → Option String
  | [], best_id, _ => best_id
  | (eid, p) :: rest, best_id, best_sim =>
    if p.is_expired now ed then scan_entities thr ed now features rest best_id best_sim
    else
      match p.typical_features with
      | none => scan_entities thr ed now features rest best_id best_sim
      | some tf =>
        let s := calculate_similarity features tf
        if s > best_sim ∧ s > thr then scan_entities thr ed now features rest (some eid) s
        else scan_entities thr ed now features rest best_id best_sim

/-- `EphemeralIdentityManager.find_matching_entity`. -/
noncomputable def find_matching_entity (m : EphemeralIdentityManager)
    (features : BehavioralFeatures) (now : ℚ) : Option String :=
  scan_entities m.similarity_threshold m.expiry_days now features m.entities none 0

/-- `EphemeralIdentityManager.detect_entity`.  The cryptographically random
id produced by `generate_entity_id` is passed in as `new_id`.  The source
tests the match with Python truthiness (`if entity_id:`), so an empty-string
id would be treated like no match; this is modelled faithfully. -/
noncomputable def detect_entity (m : EphemeralIdentityManager) (features : BehavioralFeatures)
    (now : ℚ) (new_id : String) : EphemeralIdentityManager × String × Bool :=
  match find_matching_entity m features now with
  | some eid =>
    if eid = "" then
      ({ m with entities := m.entities ++
          [(new_id, { entity_id := new_id, first_observed := now, last_seen := now,
                      observation_count := 1, typical_features := some features,
                      confidence := 0.1 })] }, new_id, true)
    else
      ({ m with entities := updateKey eid (fun p => p.update features now) m.entities },
       eid, false)
  | none =>
    ({ m with entities := m.entities ++
        [(new_id, { entity_id := new_id, first_observed := now, last_seen := now,
                    observation_count := 1, typical_features := some features,
                    confidence := 0.1 })] }, new_id, true)

/-- `EphemeralIdentityManager.cleanup_expired_entities`: remove every
expired profile, return the number removed. -/
def cleanup_expired_entities (m : EphemeralIdentityManager) (now : ℚ) :
    EphemeralIdentityManager × ℕ :=
  ({ m with entities := m.entities.filter (fun e => !e.2.is_expired now m.expiry_days) },
   (m.entities.filter (fun e => e.2.is_expired now m.expiry_days)).length)

/-- `EphemeralIdentityManager.get_entity_info`: a plain dictionary lookup. -/
def get_entity_info (m : EphemeralIdentityManager) (entity_id : String) :
    Option EntityProfile :=
  lookupKey entity_id m.entities

/-! ### Association-list lemmas -/

/-- All values of the association list are nonnegative (the representation
invariant of `zone_frequencies` maintained by the store). -/
def valsNonneg (l : List (String × ℝ)) : Prop := ∀ e ∈ l, (0:ℝ) ≤ e.2

lemma lookupKey_mapVals {α : Type} (f : α → α) (k : String) :
    ∀ l, lookupKey k (mapVals f l) = (lookupKey k l).map f := by
  intro l
  induction l with
  | nil => rfl
  | cons e rest ih =>
    obtain ⟨k', v⟩ := e
    by_cases h : k = k' <;> simp [mapVals, lookupKey, h, ih]

lemma lookupKey_updateKey_self {α : Type} (f : α → α) (k : String) :
    ∀ l v, lookupKey k l = some v → lookupKey k (updateKey k f l) = some (f v) := by
  intro l
  induction l with
  | nil => intro v h; simp [lookupKey] at h
  | cons e rest ih =>
    obtain ⟨k', v'⟩ := e
    intro v h
    by_cases hk : k = k'
    · simp [lookupKey, hk] at h
      simp [updateKey, lookupKey, hk, h]
    · simp [lookupKey, hk] at h
      simp [updateKey, lookupKey, hk, ih _ h]

lemma lookupKey_updateKey_ne {α : Type} (f : α → α) (k a : String) (hka : k ≠ a) :
    ∀ l, lookupKey k (updateKey a f l) = lookupKey k l := by
  intro l
  induction l with
  | nil => rfl
  | cons e rest ih =>
    obtain ⟨k', v'⟩ := e
    by_cases ha : a = k'
    · subst ha
      simp [updateKey, lookupKey, hka, ih]
    · by_cases hk : k = k' <;> simp [updateKey, lookupKey, hk, ha, ih]

lemma lookupKey_append_self {α : Type} (k : String) (x : α) :
    ∀ l, lookupKey k l = none → lookupKey k (l ++ [(k, x)]) = some x := by
  intro l
  induction l with
  | nil => intro _; simp [lookupKey]
  | cons e rest ih =>
    obtain ⟨k', v'⟩ := e
    intro h
    by_cases hk : k = k'
    · simp [lookupKey, hk] at h
    · simp [lookupKey, hk] at h ⊢
      exact ih h

lemma lookupKey_append_ne {α : Type} (k a : String) (hka : k ≠ a) (x : α) :
    ∀ l, lookupKey k (l ++ [(a, x)]) = lookupKey k l := by
  intro l
  induction l with
  | nil => simp [lookupKey, hka]
  | cons e rest ih =>
    obtain ⟨k', v'⟩ := e
    by_cases hk : k = k' <;> simp [lookupKey, hk, ih]

lemma lookupKey_mem {α : Type} (k : String) (v : α) :
    ∀ l, lookupKey k l = some v → (k, v) ∈ l := by
  intro l
  induction l with
  | nil => intro h; simp [lookupKey] at h
  | cons e rest ih =>
    obtain ⟨k', v'⟩ := e
    intro h
    by_cases hk : k = k'
    · simp [lookupKey, hk] at h
      simp [hk, h]
    · simp [lookupKey, hk] at h
      exact List.mem_cons_of_mem _ (ih h)

lemma mem_mapVals {α : Type} (f : α → α) (e : String × α) :
    ∀ l, e ∈ mapVals f l → ∃ v₀, (e.1, v₀) ∈ l ∧ e.2 = f v₀ := by
  intro l
  induction l with
  | nil => intro h; simp [mapVals] at h
  | cons e' rest ih =>
    obtain ⟨k', v'⟩ := e'
    intro h
    simp only [mapVals, List.mem_cons] at h
    rcases h with h | h
    · subst h; exact ⟨v', by simp⟩
    · obtain ⟨v₀, hv₀, he⟩ := ih h
      exact ⟨v₀, List.mem_cons_of_mem _ hv₀, he⟩

lemma mem_setKey {α : Type} (k : String) (w : α) (e : String × α) :
    ∀ l, e ∈ setKey k w l → e = (k, w) ∨ e ∈ l := by
  intro l
  induction l with
  | nil => intro h; simp [setKey] at h
  | cons e' rest ih =>
    obtain ⟨k', v'⟩ := e'
    intro h
    by_cases hk : k = k'
    · simp only [setKey, if_pos hk, List.mem_cons] at h
      rcases h with h | h
      · exact Or.inl (by simp [h, hk])
      · exact Or.inr (List.mem_cons_of_mem _ h)
    · simp only [setKey, if_neg hk, List.mem_cons] at h
      rcases h with h | h
      · exact Or.inr (by simp [h])
      · rcases ih h with h' | h'
        · exact Or.inl h'
        · exact Or.inr (List.mem_cons_of_mem _ h')

lemma sumVals_append (l : List (String × ℝ)) (k : String) (x : ℝ) :
    sumVals (l ++ [(k, x)]) = sumVals l + x := by
  induction l with
  | nil => simp [sumVals]
  | cons e rest ih =>
    obtain ⟨k', v'⟩ := e
    simp [sumVals, ih]; ring

lemma sumVals_setKey_add_one (k : String) :
    ∀ l v, lookupKey k l = some v → sumVals (setKey k (v + 1) l) = sumVals l + 1 := by
  intro l
  induction l with
  | nil => intro v h; simp [lookupKey] at h
  | cons e rest ih =>
    obtain ⟨k', v'⟩ := e
    intro v h
    by_cases hk : k = k'
    · simp [lookupKey, hk] at h
      simp [setKey, hk, sumVals, h]; ring
    · simp [lookupKey, hk] at h
      simp [setKey, hk, sumVals, ih _ h]; ring

lemma sumVals_mapVals_div (t : ℝ) :
    ∀ l, sumVals (mapVals (fun v => v / t) l) = sumVals l / t := by
  intro l
  induction l with
  | nil => simp [mapVals, sumVals]
  | cons e rest ih =>
    obtain ⟨k', v'⟩ := e
    simp [mapVals, sumVals, ih, add_div]

lemma sumVals_mapVals_mul (d : ℝ) :
    ∀ l, sumVals (mapVals (fun v => v * d) l) = sumVals l * d := by
  intro l
  induction l with
  | nil => simp [mapVals, sumVals]
  | cons e rest ih =>
    obtain ⟨k', v'⟩ := e
    simp [mapVals, sumVals, ih, add_mul]

lemma sumVals_nonneg : ∀ l, valsNonneg l → 0 ≤ sumVals l := by
  intro l
  induction l with
  | nil => intro _; simp [sumVals]
  | cons e rest ih =>
    obtain ⟨k', v'⟩ := e
    intro h
    have h1 : (0:ℝ) ≤ v' := h (k', v') (by simp)
    have h2 : 0 ≤ sumVals rest := ih (fun e he => h e (List.mem_cons_of_mem _ he))
    simpa [sumVals] using add_nonneg h1 h2

lemma mapVals_length {α : Type} (f : α → α) : ∀ l, (mapVals f l).length = l.length := by
  intro l
  induction l with
  | nil => rfl
  | cons e rest ih => obtain ⟨k', v'⟩ := e; simp [mapVals, ih]

lemma setKey_length {α : Type} (k : String) (w : α) :
    ∀ l, (setKey k w l).length = l.length := by
  intro l
  induction l with
  | nil => rfl
  | cons e rest ih =>
    obtain ⟨k', v'⟩ := e
    by_cases hk : k = k' <;> simp [setKey, hk, ih]

/-! ### Pattern-memory lemmas -/

lemma observe_patterns_eq (m : PatternMemory) (a : String) (h dur : ℝ) (z : String) (sp : ℝ) :
    (observe_activity m a h dur z sp).patterns =
      mapVals (decayPattern m.decay_factor)
        (updateKey a (fun p =>
          { p with
            temporal := update_temporal_pattern p.temporal h dur
            spatial := update_spatial_pattern p.spatial z sp })
          (match lookupKey a m.patterns with
           | none => m.patterns ++ [(a, { activity_type := a })]
           | some _ => m.patterns)) := rfl

lemma observe_decay_factor_eq (m : PatternMemory) (a : String) (h dur : ℝ) (z : String)
    (sp : ℝ) : (observe_activity m a h dur z sp).decay_factor = m.decay_factor := rfl

lemma observe_total_eq (m : PatternMemory) (a : String) (h dur : ℝ) (z : String) (sp : ℝ) :
    (observe_activity m a h dur z sp).total_observations = m.total_observations + 1 := rfl

lemma observe_lookup_touched_none (m : PatternMemory) (a : String) (h dur : ℝ) (z : String)
    (sp : ℝ) (hl : lookupKey a m.patterns = none) :
    lookupKey a (observe_activity m a h dur z sp).patterns =
      some (decayPattern m.decay_factor
        { activity_type := a
          temporal := update_temporal_pattern {} h dur
          spatial := update_spatial_pattern {} z sp }) := by
  rw [observe_patterns_eq, hl, lookupKey_mapVals,
    lookupKey_updateKey_self _ _ _ _ (lookupKey_append_self a _ m.patterns hl)]
  rfl

lemma observe_lookup_touched_some (m : PatternMemory) (a : String) (h dur : ℝ) (z : String)
    (sp : ℝ) (p0 : ActivityPattern) (hl : lookupKey a m.patterns = some p0) :
    lookupKey a (observe_activity m a h dur z sp).patterns =
      some (decayPattern m.decay_factor
        { p0 with
          temporal := update_temporal_pattern p0.temporal h dur
          spatial := update_spatial_pattern p0.spatial z sp }) := by
  rw [observe_patterns_eq, hl, lookupKey_mapVals, lookupKey_updateKey_self _ _ _ _ hl]
  rfl

lemma observe_lookup_untouched (m : PatternMemory) (a : String) (h dur : ℝ) (z : String)
    (sp : ℝ) (b : String) (hba : b ≠ a) :
    lookupKey b (observe_activity m a h dur z sp).patterns =
      (lookupKey b m.patterns).map (decayPattern m.decay_factor) := by
  rw [observe_patterns_eq]
  cases hl : lookupKey a m.patterns with
  | none => rw [lookupKey_mapVals, lookupKey_updateKey_ne _ _ _ hba,
      lookupKey_append_ne b a hba _ m.patterns]
  | some p0 => rw [lookupKey_mapVals, lookupKey_updateKey_ne _ _ _ hba]

lemma update_temporal_fresh (h dur : ℝ) :
    update_temporal_pattern {} h dur =
      { active_hours_mean := h, active_hours_std := 0, typical_duration_mean := dur,
        typical_duration_std := 0, frequency_per_day := 0,
        pattern_stability := min 1 (1 / 20), observation_count := 1 } := by
  norm_num [update_temporal_pattern, TemporalPattern.mk.injEq]

lemma update_spatial_fresh (z : String) (sp : ℝ) :
    update_spatial_pattern {} z sp =
      { zone_frequencies := [(z, 1)], movement_speed_mean := sp, movement_speed_std := 0,
        zone_transitions := [] } := by
  norm_num [update_spatial_pattern, lookupKey, mapVals, sumVals, SpatialPattern.mk.injEq]

lemma observe_fresh (d : ℝ) (n : ℕ) (a : String) (h dur : ℝ) (z : String) (sp : ℝ) :
    lookupKey a (observe_activity ⟨[], d, n⟩ a h dur z sp).patterns =
      some { activity_type := a
             temporal := { active_hours_mean := h, active_hours_std := 0,
                           typical_duration_mean := dur, typical_duration_std := 0,
                           frequency_per_day := 0,
                           pattern_stability := min 1 (1 / 20) * d,
                           observation_count := 1 * d }
             spatial := { zone_frequencies := [(z, 1 * d)], movement_speed_mean := sp,
                          movement_speed_std := 0, zone_transitions := [] } } := by
  rw [observe_lookup_touched_none ⟨[], d, n⟩ a h dur z sp rfl, update_temporal_fresh,
    update_spatial_fresh]
  simp [decayPattern, mapVals]

lemma update_spatial_zf_none (s : SpatialPattern) (zone : String) (sp : ℝ)
    (hz : lookupKey zone s.zone_frequencies = none) :
    (update_spatial_pattern s zone sp).zone_frequencies =
      mapVals (fun v => v / sumVals (s.zone_frequencies ++ [(zone, 1)]))
        (s.zone_frequencies ++ [(zone, 1)]) := by
  simp [update_spatial_pattern, hz]

lemma update_spatial_zf_some (s : SpatialPattern) (zone : String) (sp : ℝ) (v : ℝ)
    (hz : lookupKey zone s.zone_frequencies = some v) :
    (update_spatial_pattern s zone sp).zone_frequencies =
      mapVals (fun w => w / sumVals (setKey zone (v + 1) s.zone_frequencies))
        (setKey zone (v + 1) s.zone_frequencies) := by
  simp [update_spatial_pattern, hz]

lemma update_spatial_sum (s : SpatialPattern) (zone : String) (sp : ℝ)
    (hnn : valsNonneg s.zone_frequencies) :
    sumVals (update_spatial_pattern s zone sp).zone_frequencies = 1 ∧
    (update_spatial_pattern s zone sp).zone_frequencies ≠ [] ∧
    valsNonneg (update_spatial_pattern s zone sp).zone_frequencies := by
  have hs0 : 0 ≤ sumVals s.zone_frequencies := sumVals_nonneg _ hnn
  cases hz : lookupKey zone s.zone_frequencies with
  | none =>
    have hraw : sumVals (s.zone_frequencies ++ [(zone, (1:ℝ))]) =
        sumVals s.zone_frequencies + 1 := sumVals_append _ _ _
    have hpos : 0 < sumVals (s.zone_frequencies ++ [(zone, (1:ℝ))]) := by
      rw [hraw]; linarith
    rw [update_spatial_zf_none s zone sp hz]
    refine ⟨?_, ?_, ?_⟩
    · rw [sumVals_mapVals_div, div_self hpos.ne']
    · intro hcon
      have hlen := congrArg List.length hcon
      rw [mapVals_length] at hlen
      simp at hlen
    · intro e he
      obtain ⟨v₀, hv₀, he2⟩ := mem_mapVals _ _ _ he
      have hv₀nn : (0:ℝ) ≤ v₀ := by
        rcases List.mem_append.mp hv₀ with hmem | hmem
        · exact hnn _ hmem
        · simp at hmem
          rw [hmem.2]; norm_num
      rw [he2]
      exact div_nonneg hv₀nn hpos.le
  | some v =>
    have hvnn : (0:ℝ) ≤ v := hnn _ (lookupKey_mem _ _ _ hz)
    have hraw : sumVals (setKey zone (v + 1) s.zone_frequencies) =
        sumVals s.zone_frequencies + 1 := sumVals_setKey_add_one _ _ _ hz
    have hpos : 0 < sumVals (setKey zone (v + 1) s.zone_frequencies) := by
      rw [hraw]; linarith
    rw [update_spatial_zf_some s zone sp v hz]
    refine ⟨?_, ?_, ?_⟩
    · rw [sumVals_mapVals_div, div_self hpos.ne']
    · intro hcon
      have hlen := congrArg List.length hcon
      rw [mapVals_length, setKey_length] at hlen
      have hne : s.zone_frequencies ≠ [] := by
        intro h0; rw [h0] at hz; simp [lookupKey] at hz
      simp at hlen
      exact hne hlen
    · intro e he
      obtain ⟨v₀, hv₀, he2⟩ := mem_mapVals _ _ _ he
      have hv₀nn : (0:ℝ) ≤ v₀ := by
        rcases mem_setKey _ _ _ _ hv₀ with hmem | hmem
        · have : v₀ = v + 1 := congrArg Prod.snd hmem
          rw [this]; linarith
        · exact hnn _ hmem
      rw [he2]
      exact div_nonneg hv₀nn hpos.le

lemma valsNonneg_mapVals_mul (d : ℝ) (hd : 0 ≤ d) (l : List (String × ℝ))
    (hnn : valsNonneg l) : valsNonneg (mapVals (fun v => v * d) l) := by
  intro e he
  obtain ⟨v₀, hv₀, he2⟩ := mem_mapVals _ _ _ he
  rw [he2]
  exact mul_nonneg (hnn _ hv₀) hd

lemma mapVals_ne_nil {α : Type} (f : α → α) (l : List (String × α)) (hl : l ≠ []) :
    mapVals f l ≠ [] := by
  intro hcon
  have := congrArg List.length hcon
  rw [mapVals_length] at this
  exact hl (List.length_eq_zero.mp this)

lemma decayPattern_zone_frequencies (d : ℝ) (p : ActivityPattern) :
    (decayPattern d p).spatial.zone_frequencies =
      mapVals (fun v => v * d) p.spatial.zone_frequencies := rfl

/-- C1 (amended): immediately after every `observe_activity` call for
activity type `a` on a store whose stored frequencies are nonnegative, the
updated pattern's `zone_frequencies` is non-empty and its values sum to the
store's `decay_factor` — not to 1 — because the global decay pass multiplies
the freshly renormalized frequencies once more; and nonnegativity of all
stored frequencies is preserved (so the property holds after each call of
any sequence of observations). -/
theorem zone_frequencies_sum_after_observe (m : PatternMemory) (a : String)
    (h dur : ℝ) (z : String) (sp : ℝ)
    (hnn : ∀ p, lookupKey a m.patterns = some p → valsNonneg p.spatial.zone_frequencies) :
    (∃ q, lookupKey a (observe_activity m a h dur z sp).patterns = some q ∧
        q.spatial.zone_frequencies ≠ [] ∧
        sumVals q.spatial.zone_frequencies = m.decay_factor) ∧
    (0 ≤ m.decay_factor →
      (∀ b p, lookupKey b m.patterns = some p → valsNonneg p.spatial.zone_frequencies) →
      ∀ b q, lookupKey b (observe_activity m a h dur z sp).patterns = some q →
        valsNonneg q.spatial.zone_frequencies) := by
  have main : ∀ (s0 : SpatialPattern), valsNonneg s0.zone_frequencies →
      (mapVals (fun v => v * m.decay_factor)
          (update_spatial_pattern s0 z sp).zone_frequencies ≠ [] ∧
        sumVals (mapVals (fun v => v * m.decay_factor)
          (update_spatial_pattern s0 z sp).zone_frequencies) = m.decay_factor) := by
    intro s0 hs0
    obtain ⟨hsum, hne, _⟩ := update_spatial_sum s0 z sp hs0
    refine ⟨mapVals_ne_nil _ _ hne, ?_⟩
    rw [sumVals_mapVals_mul, hsum, one_mul]
  constructor
  · cases hl : lookupKey a m.patterns with
    | none =>
      refine ⟨_, observe_lookup_touched_none m a h dur z sp hl, ?_⟩
      have := main {} (by intro e he; simp at he)
      rw [decayPattern_zone_frequencies]
      exact ⟨this.1, this.2⟩
    | some p0 =>
      refine ⟨_, observe_lookup_touched_some m a h dur z sp p0 hl, ?_⟩
      have := main p0.spatial (hnn p0 hl)
      rw [decayPattern_zone_frequencies]
      exact ⟨this.1, this.2⟩
  · intro hd hall b q hq
    by_cases hba : b = a
    · subst hba
      cases hl : lookupKey b m.patterns with
      | none =>
        rw [observe_lookup_touched_none m b h dur z sp hl] at hq
        obtain ⟨_, _, hnn'⟩ := update_spatial_sum ({} : SpatialPattern) z sp
          (by intro e he; simp at he)
        cases hq
        rw [decayPattern_zone_frequencies]
        exact valsNonneg_mapVals_mul _ hd _ hnn'
      | some p0 =>
        rw [observe_lookup_touched_some m b h dur z sp p0 hl] at hq
        obtain ⟨_, _, hnn'⟩ := update_spatial_sum p0.spatial z sp (hnn p0 hl)
        cases hq
        rw [decayPattern_zone_frequencies]
        exact valsNonneg_mapVals_mul _ hd _ hnn'
    · rw [observe_lookup_untouched m a h dur z sp b hba] at hq
      cases hlb : lookupKey b m.patterns with
      | none => rw [hlb] at hq; simp at hq
      | some p =>
        rw [hlb] at hq
        simp only [Option.map_some'] at hq
        cases hq
        rw [decayPattern_zone_frequencies]
        exact valsNonneg_mapVals_mul _ hd _ (hall b p hlb)

/-- Witness for C1: the amended theorem applied to a fresh store with
`decay_factor = 0.95` and one observation. -/
theorem zone_frequencies_sum_after_observe_witness :
    ∃ q, lookupKey "x"
        (observe_activity ⟨[], 0.95, 0⟩ "x" 7.5 25 "kitchen" 1.2).patterns = some q ∧
      q.spatial.zone_frequencies ≠ [] ∧
      sumVals q.spatial.zone_frequencies = (0.95 : ℝ) :=
  (zone_frequencies_sum_after_observe ⟨[], 0.95, 0⟩ "x" 7.5 25 "kitchen" 1.2
    (fun p hp => absurd hp (by simp [lookupKey]))).1

/-- Counterexample for C1 as stated: on a fresh store with the default
`decay_factor = 0.95`, after a single `observe_activity` call the zone
frequencies of the observed activity sum to 19/20 = 0.95, not 1. -/
theorem zone_frequencies_sum_counterexample :
    ((lookupKey "x"
        (observe_activity ⟨[], 0.95, 0⟩ "x" 7.5 25 "kitchen" 1.2).patterns).map
      (fun q => sumVals q.spatial.zone_frequencies)) = some (19 / 20) ∧
    (19 / 20 : ℝ) ≠ 1 := by
  constructor
  · rw [observe_fresh]
    simp [sumVals]
    norm_num
  · norm_num

/-- C2 (amended): `observe_activity` performs no input validation at all:
for every store and every input — hour outside [0,24), negative duration,
negative speed included — the call completes normally, increments
`total_observations`, and the observed activity's pattern is present
(created or updated) afterwards.  No invalid-input failure exists. -/
theorem observe_accepts_any_input (m : PatternMemory) (a : String) (h dur : ℝ)
    (z : String) (sp : ℝ) :
    (observe_activity m a h dur z sp).total_observations = m.total_observations + 1 ∧
    (lookupKey a (observe_activity m a h dur z sp).patterns).isSome = true := by
  refine ⟨observe_total_eq m a h dur z sp, ?_⟩
  cases hl : lookupKey a m.patterns with
  | none => rw [observe_lookup_touched_none m a h dur z sp hl]; rfl
  | some p0 => rw [observe_lookup_touched_some m a h dur z sp p0 hl]; rfl

/-- Counterexample for C2 as stated: calling `observe_activity` with
`hour = 25` (outside [0,24)), `duration = -5` and `speed = -1` on a fresh
store does not fail and does not leave the store unchanged: the counter
becomes 1 and the new pattern's mean hour is the invalid value 25. -/
theorem observe_invalid_input_counterexample :
    (observe_activity ⟨[], 0.95, 0⟩ "x" 25 (-5) "kitchen" (-1)).total_observations = 1 ∧
    ((lookupKey "x"
        (observe_activity ⟨[], 0.95, 0⟩ "x" 25 (-5) "kitchen" (-1)).patterns).map
      (fun q => q.temporal.active_hours_mean)) = some 25 ∧
    (1 : ℕ) ≠ 0 := by
  refine ⟨rfl, ?_, by norm_num⟩
  rw [observe_fresh]
  rfl

/-- A sequence of `observe_activity` calls, each given as
(activity_type, hour, duration, zone, speed). -/
noncomputable def observe_list (m : PatternMemory) :
    List (String × ℝ × ℝ × String × ℝ) → PatternMemory
  | [] => m
  | (a, h, dur, z, sp) :: rest => observe_list (observe_activity m a h dur z sp) rest

/-- C4: every `observe_activity` call decays every stored pattern exactly
once — an untouched pattern `b` becomes `decayPattern decay_factor b`,
which multiplies `observation_count`, `pattern_stability` and every zone
frequency by the decay factor; after `k` observations of other activity
types an untouched pattern's count is `initial * d^k`; and on a fresh store
with `decay_factor = 0.95` a single `observe_activity "x" 7.5 25 "kitchen"
1.2` leaves (count, mean, std) = (0.95, 7.5, 0) — the decay also hits the
pattern just updated. -/
theorem global_decay_per_observe :
    (∀ (m : PatternMemory) (a : String) (h dur : ℝ) (z : String) (sp : ℝ) (b : String)
        (p : ActivityPattern), b ≠ a → lookupKey b m.patterns = some p →
        lookupKey b (observe_activity m a h dur z sp).patterns =
          some (decayPattern m.decay_factor p)) ∧
    (∀ (d : ℝ) (p : ActivityPattern),
        (decayPattern d p).temporal.observation_count =
          p.temporal.observation_count * d ∧
        (decayPattern d p).temporal.pattern_stability =
          p.temporal.pattern_stability * d ∧
        ∀ z v, lookupKey z p.spatial.zone_frequencies = some v →
          lookupKey z (decayPattern d p).spatial.zone_frequencies = some (v * d)) ∧
    (∀ (m : PatternMemory) (b : String) (obs : List (String × ℝ × ℝ × String × ℝ)),
        (∀ o ∈ obs, o.1 ≠ b) → ∀ p, lookupKey b m.patterns = some p →
        ∃ q, lookupKey b (observe_list m obs).patterns = some q ∧
          q.temporal.observation_count =
            p.temporal.observation_count * m.decay_factor ^ obs.length) ∧
    ((lookupKey "x"
        (observe_activity ⟨[], 0.95, 0⟩ "x" 7.5 25 "kitchen" 1.2).patterns).map
      (fun q => (q.temporal.observation_count, q.temporal.active_hours_mean,
        q.temporal.active_hours_std)) = some (0.95, 7.5, 0)) := by
  have one_step : ∀ (m : PatternMemory) (a : String) (h dur : ℝ) (z : String) (sp : ℝ)
      (b : String) (p : ActivityPattern), b ≠ a → lookupKey b m.patterns = some p →
      lookupKey b (observe_activity m a h dur z sp).patterns =
        some (decayPattern m.decay_factor p) := by
    intro m a h dur z sp b p hba hb
    rw [observe_lookup_untouched m a h dur z sp b hba, hb, Option.map_some']
  refine ⟨one_step, ?_, ?_, ?_⟩
  · intro d p
    refine ⟨rfl, rfl, ?_⟩
    intro z v hz
    rw [decayPattern_zone_frequencies, lookupKey_mapVals, hz, Option.map_some']
  · intro m b obs
    induction obs generalizing m with
    | nil =>
      intro _ p hp
      exact ⟨p, hp, by simp⟩
    | cons o rest ih =>
      obtain ⟨a, h, dur, z, sp⟩ := o
      intro hne p hp
      have hba : b ≠ a := fun hcon => hne (a, h, dur, z, sp) (by simp) (by simp [hcon])
      have hstep := one_step m a h dur z sp b p hba hp
      obtain ⟨q, hq, hcount⟩ := ih (observe_activity m a h dur z sp)
        (fun o ho => hne o (List.mem_cons_of_mem _ ho))
        (decayPattern m.decay_factor p) hstep
      refine ⟨q, ?_, ?_⟩
      · simpa only [observe_list] using hq
      · rw [hcount, observe_decay_factor_eq]
        show p.temporal.observation_count * m.decay_factor * m.decay_factor ^ rest.length = _
        rw [List.length_cons, pow_succ]
        ring
  · rw [observe_fresh]
    norm_num

/-- Witness for C4: applying the theorem to a store holding one pattern
"y" and an observation of the different type "x". -/
theorem global_decay_per_observe_witness :
    lookupKey "y" (observe_activity
        ⟨[("y", { activity_type := "y" })], 0.95, 0⟩ "x" 7.5 25 "kitchen" 1.2).patterns =
      some (decayPattern 0.95 { activity_type := "y" }) :=
  global_decay_per_observe.1 ⟨[("y", { activity_type := "y" })], 0.95, 0⟩
    "x" 7.5 25 "kitchen" 1.2 "y" { activity_type := "y" }
    (by decide) (by simp [lookupKey])

/-- Modelled from the spec's wording of the anomaly score: a z-score is 0
when its standard deviation is 0, otherwise the absolute deviation from the
mean in units of the standard deviation. -/
noncomputable def spec_zscore (x mean std : ℝ) : ℝ :=
  if std = 0 then 0 else |x - mean| / std

lemma code_zscore_eq_spec (x mean std : ℝ) (h : 0 ≤ std) :
    (if std > 0 then |x - mean| / std else 0) = spec_zscore x mean std := by
  rcases h.lt_or_eq with hpos | hzero
  · rw [if_pos hpos, spec_zscore, if_neg hpos.ne']
  · rw [if_neg (by rw [← hzero]; exact lt_irrefl 0), spec_zscore, if_pos hzero.symm]

/-- C5: `detect_anomaly` returns the insufficient-data sentinel `(false, 0)`
when the pattern is absent or its decayed observation count is below 3;
otherwise it returns the maximum of the hour and duration z-scores (each 0
when its standard deviation is 0) together with the fixed `> 2` anomaly
flag; and a query exactly 3 standard deviations from the hour mean (with
positive hour std) at the duration mean yields `(true, 3)`. -/
theorem detect_anomaly_spec :
    (∀ (m : PatternMemory) (a : String) (h dur : ℝ),
        lookupKey a m.patterns = none → detect_anomaly m a h dur = (false, 0)) ∧
    (∀ (m : PatternMemory) (a : String) (h dur : ℝ) (p : ActivityPattern),
        lookupKey a m.patterns = some p → p.temporal.observation_count < 3 →
        detect_anomaly m a h dur = (false, 0)) ∧
    (∀ (m : PatternMemory) (a : String) (h dur : ℝ) (p : ActivityPattern),
        lookupKey a m.patterns = some p → ¬ p.temporal.observation_count < 3 →
        0 ≤ p.temporal.active_hours_std → 0 ≤ p.temporal.typical_duration_std →
        detect_anomaly m a h dur =
          (decide (max
              (spec_zscore h p.temporal.active_hours_mean p.temporal.active_hours_std)
              (spec_zscore dur p.temporal.typical_duration_mean
                p.temporal.typical_duration_std) > 2),
           max (spec_zscore h p.temporal.active_hours_mean p.temporal.active_hours_std)
             (spec_zscore dur p.temporal.typical_duration_mean
               p.temporal.typical_duration_std))) ∧
    (∀ (m : PatternMemory) (a : String) (p : ActivityPattern),
        lookupKey a m.patterns = some p → ¬ p.temporal.observation_count < 3 →
        0 < p.temporal.active_hours_std → 0 ≤ p.temporal.typical_duration_std →
        detect_anomaly m a
          (p.temporal.active_hours_mean + 3 * p.temporal.active_hours_std)
          p.temporal.typical_duration_mean = (true, 3)) := by
  refine ⟨?_, ?_, ?_, ?_⟩
  · intro m a h dur hl
    simp [detect_anomaly, get_pattern, hl]
  · intro m a h dur p hl hc
    simp [detect_anomaly, get_pattern, hl, hc]
  · intro m a h dur p hl hc hstd1 hstd2
    simp only [detect_anomaly, get_pattern, hl, if_neg hc]
    rw [code_zscore_eq_spec _ _ _ hstd1, code_zscore_eq_spec _ _ _ hstd2]
  · intro m a p hl hc hstd1 hstd2
    simp only [detect_anomaly, get_pattern, hl, if_neg hc]
    have hz1 : |p.temporal.active_hours_mean + 3 * p.temporal.active_hours_std -
        p.temporal.active_hours_mean| / p.temporal.active_hours_std = 3 := by
      rw [show p.temporal.active_hours_mean + 3 * p.temporal.active_hours_std -
          p.temporal.active_hours_mean = 3 * p.temporal.active_hours_std by ring,
        abs_of_nonneg (by positivity), mul_div_assoc, div_self hstd1.ne', mul_one]
    rw [if_pos hstd1, hz1]
    have hz2 : (if p.temporal.typical_duration_std > 0 then
        |p.temporal.typical_duration_mean - p.temporal.typical_duration_mean| /
          p.temporal.typical_duration_std else 0) = 0 := by
      rcases hstd2.lt_or_eq with hpos | hzero
      · rw [if_pos hpos, sub_self, abs_zero, zero_div]
      · rw [if_neg (by rw [← hzero]; exact lt_irrefl 0)]
    rw [hz2]
    have hmax : max (3:ℝ) 0 = 3 := max_eq_left (by norm_num)
    rw [hmax]
    norm_num

/-- Concrete pattern used by the C5 witness: hour mean 7, hour std 1,
duration mean 25, duration std 0, observation count 3. -/
noncomputable def anomaly_demo_pattern : ActivityPattern :=
  { activity_type := "b"
    temporal := { active_hours_mean := 7, active_hours_std := 1,
                  typical_duration_mean := 25, typical_duration_std := 0,
                  frequency_per_day := 0, pattern_stability := 0,
                  observation_count := 3 } }

/-- Witness for C5: on the concrete stored pattern, the query 3 standard
deviations above the hour mean at the duration mean is flagged anomalous
with deviation 3. -/
theorem detect_anomaly_spec_witness :
    detect_anomaly ⟨[("b", anomaly_demo_pattern)], 0.95, 0⟩ "b" (7 + 3 * 1) 25 =
      (true, 3) :=
  detect_anomaly_spec.2.2.2 ⟨[("b", anomaly_demo_pattern)], 0.95, 0⟩ "b"
    anomaly_demo_pattern (by simp [lookupKey])
    (by norm_num [anomaly_demo_pattern]) (by norm_num [anomaly_demo_pattern])
    (by norm_num [anomaly_demo_pattern])

/-- Modelled from the spec: the generic online (mean, std) accumulator rule —
on the first sample `(sample, 0)`, on each subsequent sample the exponential
moving average of the mean and the damped root-mean-square update of the
standard deviation using the old mean. -/
noncomputable def emaStatRule (alpha : ℝ) (first : Bool) (mean std sample : ℝ) : ℝ × ℝ :=
  if first then (sample, 0)
  else (alpha * sample + (1 - alpha) * mean,
        Real.sqrt (alpha * (sample - mean) ^ 2 + (1 - alpha) * std ^ 2))

/-- C7 (amended): the temporal hour and duration accumulators follow the
spec's online rule exactly, with "first sample" keyed on the incremented
observation count equalling 1; the movement-speed accumulator follows the
rule only while its stored mean is nonzero — it uses `mean == 0` as its
first-sample test, so any update from a zero mean (in particular after a
first sample of 0) re-initializes `(mean, std) = (sample, 0)` instead of
applying the EMA formula. -/
theorem accumulator_rule_amended :
    (∀ (t : TemporalPattern) (h dur : ℝ),
        ((update_temporal_pattern t h dur).active_hours_mean,
         (update_temporal_pattern t h dur).active_hours_std) =
          emaStatRule 0.2 (decide (t.observation_count + 1 = 1))
            t.active_hours_mean t.active_hours_std h ∧
        ((update_temporal_pattern t h dur).typical_duration_mean,
         (update_temporal_pattern t h dur).typical_duration_std) =
          emaStatRule 0.2 (decide (t.observation_count + 1 = 1))
            t.typical_duration_mean t.typical_duration_std dur) ∧
    (∀ (s : SpatialPattern) (z : String) (sp : ℝ), s.movement_speed_mean ≠ 0 →
        ((update_spatial_pattern s z sp).movement_speed_mean,
         (update_spatial_pattern s z sp).movement_speed_std) =
          emaStatRule 0.2 false s.movement_speed_mean s.movement_speed_std sp) ∧
    (∀ (s : SpatialPattern) (z : String) (sp : ℝ), s.movement_speed_mean = 0 →
        ((update_spatial_pattern s z sp).movement_speed_mean,
         (update_spatial_pattern s z sp).movement_speed_std) = (sp, 0)) := by
  refine ⟨?_, ?_, ?_⟩
  · intro t h dur
    by_cases hc : t.observation_count + 1 = 1 <;>
      simp [update_temporal_pattern, emaStatRule, hc]
  · intro s z sp hs
    simp [update_spatial_pattern, emaStatRule, hs]
  · intro s z sp hs
    simp [update_spatial_pattern, emaStatRule, hs]

/-- Witness for C7: the movement-speed accumulator applied from a state with
nonzero mean 1 and std 0 on sample 2 agrees with the spec rule. -/
theorem accumulator_rule_amended_witness :
    ((update_spatial_pattern ⟨[], 1, 0, []⟩ "z" 2).movement_speed_mean,
     (update_spatial_pattern ⟨[], 1, 0, []⟩ "z" 2).movement_speed_std) =
      emaStatRule 0.2 false 1 0 2 :=
  accumulator_rule_amended.2.1 ⟨[], 1, 0, []⟩ "z" 2 (by norm_num)

/-- Counterexample for C7 as stated: feeding the movement-speed accumulator
the samples 0 then 1 from a fresh pattern yields mean 1 (the zero mean
re-triggered the first-sample branch), while the spec's rule demands
`0.2 * 1 + 0.8 * 0 = 1/5`. -/
theorem speed_accumulator_counterexample :
    (update_spatial_pattern (update_spatial_pattern {} "z" 0) "z" 1).movement_speed_mean
        = 1 ∧
    (emaStatRule 0.2 false 0 0 1).1 = 1 / 5 ∧ (1 : ℝ) ≠ 1 / 5 := by
  refine ⟨?_, ?_, by norm_num⟩
  · rw [update_spatial_fresh]
    simp [update_spatial_pattern]
  · simp [emaStatRule]
    norm_num

/-! ### Identity-registry lemmas -/

lemma calculate_similarity_eq (a b : BehavioralFeatures) :
    calculate_similarity a b =
      max 0 (1 - Real.sqrt (∑ i : Fin 5,
        ((a.to_vector i - b.to_vector i) * similarity_weights i) ^ 2) / 10.0) := rfl

/-- C10: the behavioral similarity is 1 on identical feature records,
symmetric, and always within [0, 1] — in particular never negative. -/
theorem similarity_properties (a b : BehavioralFeatures) :
    calculate_similarity a a = 1 ∧
    calculate_similarity a b = calculate_similarity b a ∧
    0 ≤ calculate_similarity a b ∧ calculate_similarity a b ≤ 1 := by
  refine ⟨?_, ?_, ?_, ?_⟩
  · rw [calculate_similarity_eq]
    simp
  · rw [calculate_similarity_eq, calculate_similarity_eq]
    have hsum : (∑ i : Fin 5, ((a.to_vector i - b.to_vector i) * similarity_weights i) ^ 2)
        = ∑ i : Fin 5, ((b.to_vector i - a.to_vector i) * similarity_weights i) ^ 2 := by
      refine Finset.sum_congr rfl (fun i _ => ?_)
      ring
    rw [hsum]
  · rw [calculate_similarity_eq]
    exact le_max_left 0 _
  · rw [calculate_similarity_eq]
    have hs : 0 ≤ Real.sqrt (∑ i : Fin 5,
        ((a.to_vector i - b.to_vector i) * similarity_weights i) ^ 2) := Real.sqrt_nonneg _
    have : (1 : ℝ) - Real.sqrt (∑ i : Fin 5,
        ((a.to_vector i - b.to_vector i) * similarity_weights i) ^ 2) / 10.0 ≤ 1 := by
      have : 0 ≤ Real.sqrt (∑ i : Fin 5,
          ((a.to_vector i - b.to_vector i) * similarity_weights i) ^ 2) / 10.0 := by
        positivity
      linarith
    exact max_le (by norm_num) this

/-- C9: with `expiry_days = 30`, a profile last seen exactly 30 days ago is
not expired while 31 days ago is (day-floor truncation); and
`cleanup_expired_entities` keeps exactly the non-expired profiles (in
order, unmodified), removes the expired ones, returns the number removed,
and leaves the configuration untouched. -/
theorem expiry_boundary_and_cleanup :
    (∀ (now : ℚ) (p : EntityProfile), p.last_seen = now - 30 * 86400 →
        p.is_expired now 30 = false) ∧
    (∀ (now : ℚ) (p : EntityProfile), p.last_seen = now - 31 * 86400 →
        p.is_expired now 30 = true) ∧
    (∀ (m : EphemeralIdentityManager) (now : ℚ),
        (cleanup_expired_entities m now).1.entities =
          m.entities.filter (fun e => !e.2.is_expired now m.expiry_days) ∧
        (∀ e ∈ m.entities, (e ∈ (cleanup_expired_entities m now).1.entities ↔
          e.2.is_expired now m.expiry_days = false)) ∧
        (cleanup_expired_entities m now).1.entities.Sublist m.entities ∧
        (cleanup_expired_entities m now).2 +
          (cleanup_expired_entities m now).1.entities.length = m.entities.length ∧
        (cleanup_expired_entities m now).1.similarity_threshold = m.similarity_threshold ∧
        (cleanup_expired_entities m now).1.expiry_days = m.expiry_days) := by
  refine ⟨?_, ?_, ?_⟩
  · intro now p h
    rw [EntityProfile.is_expired, elapsed_days, h]
    rw [show now - (now - 30 * 86400) = 30 * 86400 by ring]
    norm_num
  · intro now p h
    rw [EntityProfile.is_expired, elapsed_days, h]
    rw [show now - (now - 31 * 86400) = 31 * 86400 by ring]
    norm_num
  · intro m now
    refine ⟨rfl, ?_, ?_, ?_, rfl, rfl⟩
    · intro e he
      constructor
      · intro hmem
        have := (List.mem_filter.mp hmem).2
        simpa using this
      · intro hexp
        exact List.mem_filter.mpr ⟨he, by simp [hexp]⟩
    · exact List.filter_sublist _
    · have := List.length_eq_length_filter_add
        (l := m.entities) (fun e => e.2.is_expired now m.expiry_days)
      rw [cleanup_expired_entities]
      simpa using this.symm

/-- Witness for C9: a profile last seen exactly 30 days before "now" is not
expired with `expiry_days = 30`. -/
theorem expiry_boundary_and_cleanup_witness :
    (⟨"e", 0, 0, 1, none, 0⟩ : EntityProfile).is_expired (30 * 86400) 30 = false :=
  expiry_boundary_and_cleanup.1 (30 * 86400) ⟨"e", 0, 0, 1, none, 0⟩ (by norm_num)

/-- The profile of one entity as produced by `detect_entity`: created on its
first (unmatched) observation, then updated by `n` further matched
observations with features `obs k` at times `times k`. -/
noncomputable def profile_after_updates (nid : String) (f0 : BehavioralFeatures) (t0 : ℚ)
    (obs : ℕ → BehavioralFeatures) (times : ℕ → ℚ) : ℕ → EntityProfile
  | 0 => { entity_id := nid, first_observed := t0, last_seen := t0,
           observation_count := 1, typical_features := some f0, confidence := 0.1 }
  | n + 1 => (profile_after_updates nid f0 t0 obs times n).update (obs n) (times n)

lemma update_observation_count (p : EntityProfile) (f : BehavioralFeatures) (now : ℚ) :
    (p.update f now).observation_count = p.observation_count + 1 := by
  cases htf : p.typical_features <;> simp [EntityProfile.update, htf]

lemma update_confidence (p : EntityProfile) (f : BehavioralFeatures) (now : ℚ) :
    (p.update f now).confidence = min 1 (((p.observation_count : ℝ) + 1) / 10) := by
  cases htf : p.typical_features <;>
    simp [EntityProfile.update, htf] <;> norm_num

/-- C8: `confidence = min(1, observation_count/10)` is established at
creation (count 1, confidence 0.1) and maintained by every matched update;
`observation_count` only ever increases by 1 per update and is never
decayed (`cleanup_expired_entities` removes profiles but modifies none);
hence after `n` total observations of one entity (the creating one plus
`n - 1` matched ones) its confidence is `min(1, n/10)`, non-decreasing
in `n`. -/
theorem confidence_invariant :
    (∀ (p : EntityProfile) (f : BehavioralFeatures) (now : ℚ),
        (p.update f now).observation_count = p.observation_count + 1 ∧
        (p.update f now).confidence = min 1 (((p.observation_count : ℝ) + 1) / 10)) ∧
    (∀ (nid : String) (f0 : BehavioralFeatures) (t0 : ℚ) (obs : ℕ → BehavioralFeatures)
        (times : ℕ → ℚ) (n : ℕ),
        (profile_after_updates nid f0 t0 obs times n).observation_count = n + 1 ∧
        (profile_after_updates nid f0 t0 obs times n).confidence =
          min 1 (((n : ℝ) + 1) / 10)) ∧
    (∀ k : ℕ, min (1:ℝ) ((k : ℝ) / 10) ≤ min 1 (((k : ℝ) + 1) / 10)) ∧
    (∀ (m : EphemeralIdentityManager) (now : ℚ) (e : String × EntityProfile),
        e ∈ (cleanup_expired_entities m now).1.entities → e ∈ m.entities) := by
  refine ⟨?_, ?_, ?_, ?_⟩
  · intro p f now
    exact ⟨update_observation_count p f now, update_confidence p f now⟩
  · intro nid f0 t0 obs times n
    induction n with
    | zero =>
      refine ⟨rfl, ?_⟩
      show (0.1 : ℝ) = min 1 ((((0 : ℕ) : ℝ) + 1) / 10)
      norm_num
    | succ k ih =>
      constructor
      · rw [profile_after_updates, update_observation_count, ih.1]
      · rw [profile_after_updates, update_confidence, ih.1]
  · intro k
    exact min_le_min le_rfl (by linarith)
  · intro m now e he
    exact List.mem_of_mem_filter he

/-- Witness for C8: applying the cleanup-preservation part to a registry
with one non-expired profile. -/
theorem confidence_invariant_witness :
    ("e", (⟨"e", 0, 0, 1, none, 0⟩ : EntityProfile)) ∈
      (⟨[("e", ⟨"e", 0, 0, 1, none, 0⟩)], 0.85, 30⟩ :
        EphemeralIdentityManager).entities :=
  confidence_invariant.2.2.2 ⟨[("e", ⟨"e", 0, 0, 1, none, 0⟩)], 0.85, 30⟩ 0
    ("e", ⟨"e", 0, 0, 1, none, 0⟩)
    (by simp [cleanup_expired_entities, EntityProfile.is_expired, elapsed_days])

lemma lookupKey_eq_none_of_not_mem_keys {α : Type} (k : String) :
    ∀ l : List (String × α), k ∉ l.map Prod.fst → lookupKey k l = none := by
  intro l
  induction l with
  | nil => intro _; rfl
  | cons e rest ih =>
    obtain ⟨k', v'⟩ := e
    intro hnot
    simp only [List.map_cons, List.mem_cons] at hnot
    push_neg at hnot
    simp [lookupKey, hnot.1, ih hnot.2]

lemma lookupKey_filter_none {α : Type} (pred : String × α → Bool) (k : String) (p : α) :
    ∀ l : List (String × α), (l.map Prod.fst).Nodup → lookupKey k l = some p →
      pred (k, p) = false → lookupKey k (l.filter pred) = none := by
  intro l
  induction l with
  | nil => intro _ h; simp [lookupKey] at h
  | cons e rest ih =>
    obtain ⟨k', v'⟩ := e
    intro hnd hlook hpred
    rw [List.map_cons] at hnd
    have hnd0 := List.nodup_cons.mp hnd
    by_cases hk : k = k'
    · subst hk
      simp only [lookupKey, if_pos rfl] at hlook
      injection hlook with hv
      subst hv
      have hdrop : ((k, v') :: rest).filter pred = rest.filter pred := by
        rw [List.filter_cons, hpred]
        simp
      rw [hdrop]
      apply lookupKey_eq_none_of_not_mem_keys
      intro hcon
      obtain ⟨e', he', hfst⟩ := List.mem_map.mp hcon
      exact hnd0.1 (List.mem_map.mpr ⟨e', List.mem_of_mem_filter he', hfst⟩)
    · simp only [lookupKey, if_neg hk] at hlook
      rw [List.filter_cons]
      by_cases hp : pred (k', v') = true
      · rw [if_pos (by simp [hp])]
        simp only [lookupKey, if_neg hk]
        exact ih hnd0.2 hlook hpred
      · rw [if_neg (by simpa using hp)]
        exact ih hnd0.2 hlook hpred

/-- C3 (amended): `get_entity_info` is a plain dictionary lookup that does
not consult expiry: it returns `none` exactly when no profile with that id
is currently stored (never created, or removed by
`cleanup_expired_entities`); a profile that has expired but has not yet
been cleaned up is still returned. -/
theorem get_entity_info_ignores_expiry :
    (∀ (m : EphemeralIdentityManager) (eid : String),
        lookupKey eid m.entities = none → get_entity_info m eid = none) ∧
    (∀ (m : EphemeralIdentityManager) (eid : String) (p : EntityProfile),
        lookupKey eid m.entities = some p → get_entity_info m eid = some p) ∧
    (∀ (m : EphemeralIdentityManager) (now : ℚ) (eid : String) (p : EntityProfile),
        (m.entities.map Prod.fst).Nodup →
        lookupKey eid m.entities = some p →
        p.is_expired now m.expiry_days = true →
        get_entity_info (cleanup_expired_entities m now).1 eid = none) := by
  refine ⟨?_, ?_, ?_⟩
  · intro m eid h
    exact h
  · intro m eid p h
    exact h
  · intro m now eid p hnd hlook hexp
    show lookupKey eid (cleanup_expired_entities m now).1.entities = none
    have : (cleanup_expired_entities m now).1.entities =
        m.entities.filter (fun e => !e.2.is_expired now m.expiry_days) := rfl
    rw [this]
    exact lookupKey_filter_none _ eid p m.entities hnd hlook (by simp [hexp])

/-- Witness for C3: after `cleanup_expired_entities`, a profile expired 31
days after its last observation is gone from `get_entity_info`. -/
theorem get_entity_info_ignores_expiry_witness :
    get_entity_info (cleanup_expired_entities
      ⟨[("e", ⟨"e", 0, 0, 1, none, 0⟩)], 0.85, 30⟩ (31 * 86400)).1 "e" = none :=
  get_entity_info_ignores_expiry.2.2 ⟨[("e", ⟨"e", 0, 0, 1, none, 0⟩)], 0.85, 30⟩
    (31 * 86400) "e" ⟨"e", 0, 0, 1, none, 0⟩ (by simp) (by simp [lookupKey])
    (by rw [EntityProfile.is_expired]; norm_num [elapsed_days])

/-- Counterexample for C3 as stated: a profile whose `last_seen` lies 31
days in the past is expired, yet `get_entity_info` still returns it as long
as `cleanup_expired_entities` has not run. -/
theorem get_entity_info_expired_counterexample :
    (⟨"e", 0, 0, 1, none, 0⟩ : EntityProfile).is_expired (31 * 86400) 30 = true ∧
    get_entity_info ⟨[("e", ⟨"e", 0, 0, 1, none, 0⟩)], 0.85, 30⟩ "e" =
      some ⟨"e", 0, 0, 1, none, 0⟩ ∧
    some (⟨"e", 0, 0, 1, none, 0⟩ : EntityProfile) ≠ none := by
  refine ⟨?_, ?_, by simp⟩
  · rw [EntityProfile.is_expired]
    norm_num [elapsed_days]
  · simp [get_entity_info, lookupKey]

/-- An entry of the entity map that `find_matching_entity` does not skip:
not expired and carrying `typical_features`. -/
def qualifies (ed : ℤ) (now : ℚ) (e : String × EntityProfile) : Prop :=
  e.2.is_expired now ed = false ∧ e.2.typical_features.isSome = true

/-- Similarity of the query features to an entry's typical features
(0 for an entry without features, which `find_matching_entity` skips). -/
noncomputable def entry_similarity (f : BehavioralFeatures)
    (e : String × EntityProfile) : ℝ :=
  match e.2.typical_features with
  | none => 0
  | some tf => calculate_similarity f tf

/-- Characterization of the `find_matching_entity` loop: starting from the
accumulator `(bid, bs)`, the scan either returns `bid` unchanged — and then
every qualifying entry has similarity at most `bs` or at most the
threshold — or it returns the first qualifying entry realizing the maximal
similarity that strictly exceeds both the threshold and `bs`: every earlier
qualifying entry is strictly below it, every later one at most it. -/
lemma scan_entities_spec (thr : ℝ) (ed : ℤ) (now : ℚ) (f : BehavioralFeatures) :
    ∀ (l : List (String × EntityProfile)) (bid : Option String) (bs : ℝ),
      (scan_entities thr ed now f l bid bs = bid ∧
        ∀ e ∈ l, qualifies ed now e →
          entry_similarity f e ≤ bs ∨ entry_similarity f e ≤ thr) ∨
      (∃ l₁ eid p l₂, l = l₁ ++ (eid, p) :: l₂ ∧
        scan_entities thr ed now f l bid bs = some eid ∧
        qualifies ed now (eid, p) ∧
        entry_similarity f (eid, p) > thr ∧ entry_similarity f (eid, p) > bs ∧
        (∀ e ∈ l₁, qualifies ed now e →
          entry_similarity f e < entry_similarity f (eid, p)) ∧
        (∀ e ∈ l₂, qualifies ed now e →
          entry_similarity f e ≤ entry_similarity f (eid, p))) := by
  intro l
  induction l with
  | nil =>
    intro bid bs
    left
    exact ⟨rfl, by intro e he; simp at he⟩
  | cons e0 rest ih =>
    obtain ⟨eid0, p0⟩ := e0
    intro bid bs
    cases hexp : p0.is_expired now ed with
    | true =>
      have hscan : scan_entities thr ed now f ((eid0, p0) :: rest) bid bs =
          scan_entities thr ed now f rest bid bs := by
        simp [scan_entities, hexp]
      have hnq : ¬ qualifies ed now (eid0, p0) := by
        intro hq
        rw [hq.1] at hexp
        exact Bool.false_ne_true hexp
      rcases ih bid bs with ⟨heq, hall⟩ |
        ⟨l₁, eid, p, l₂, hsplit, heq, hq, hthr, hbs, h3, h4⟩
      · left
        refine ⟨by rw [hscan, heq], ?_⟩
        intro e he hqe
        rcases List.mem_cons.mp he with rfl | hmem
        · exact absurd hqe hnq
        · exact hall e hmem hqe
      · right
        refine ⟨(eid0, p0) :: l₁, eid, p, l₂, by rw [hsplit]; rfl,
          by rw [hscan, heq], hq, hthr, hbs, ?_, h4⟩
        intro e he hqe
        rcases List.mem_cons.mp he with rfl | hmem
        · exact absurd hqe hnq
        · exact h3 e hmem hqe
    | false =>
      cases htf : p0.typical_features with
      | none =>
        have hscan : scan_entities thr ed now f ((eid0, p0) :: rest) bid bs =
            scan_entities thr ed now f rest bid bs := by
          simp [scan_entities, hexp, htf]
        have hnq : ¬ qualifies ed now (eid0, p0) := by
          intro hq
          simp [qualifies, htf] at hq
        rcases ih bid bs with ⟨heq, hall⟩ |
          ⟨l₁, eid, p, l₂, hsplit, heq, hq, hthr, hbs, h3, h4⟩
        · left
          refine ⟨by rw [hscan, heq], ?_⟩
          intro e he hqe
          rcases List.mem_cons.mp he with rfl | hmem
          · exact absurd hqe hnq
          · exact hall e hmem hqe
        · right
          refine ⟨(eid0, p0) :: l₁, eid, p, l₂, by rw [hsplit]; rfl,
            by rw [hscan, heq], hq, hthr, hbs, ?_, h4⟩
          intro e he hqe
          rcases List.mem_cons.mp he with rfl | hmem
          · exact absurd hqe hnq
          · exact h3 e hmem hqe
      | some tf =>
        have hsim : entry_similarity f (eid0, p0) = calculate_similarity f tf := by
          simp [entry_similarity, htf]
        have hq0 : qualifies ed now (eid0, p0) := ⟨hexp, by simp [htf]⟩
        by_cases hcond : calculate_similarity f tf > bs ∧ calculate_similarity f tf > thr
        · have hscan : scan_entities thr ed now f ((eid0, p0) :: rest) bid bs =
              scan_entities thr ed now f rest (some eid0) (calculate_similarity f tf) := by
            simp [scan_entities, hexp, htf, hcond]
          rcases ih (some eid0) (calculate_similarity f tf) with ⟨heq, hall⟩ |
            ⟨l₁, eid, p, l₂, hsplit, heq, hq, hthr, hbs', h3, h4⟩
          · right
            refine ⟨[], eid0, p0, rest, rfl, by rw [hscan, heq],
              hq0, by rw [hsim]; exact hcond.2, by rw [hsim]; exact hcond.1,
              by intro e he; simp at he, ?_⟩
            intro e he hqe
            rw [hsim]
            rcases hall e he hqe with hle | hle
            · exact hle
            · exact le_trans hle (le_of_lt hcond.2)
          · right
            refine ⟨(eid0, p0) :: l₁, eid, p, l₂, by rw [hsplit]; rfl,
              by rw [hscan, heq], hq, hthr, lt_trans hcond.1 hbs', ?_, h4⟩
            intro e he hqe
            rcases List.mem_cons.mp he with rfl | hmem
            · rw [hsim]; exact hbs'
            · exact h3 e hmem hqe
        · have hscan : scan_entities thr ed now f ((eid0, p0) :: rest) bid bs =
              scan_entities thr ed now f rest bid bs := by
            simp only [scan_entities, hexp]
            simp [htf, hcond]
          rcases ih bid bs with ⟨heq, hall⟩ |
            ⟨l₁, eid, p, l₂, hsplit, heq, hq, hthr, hbs, h3, h4⟩
          · left
            refine ⟨by rw [hscan, heq], ?_⟩
            intro e he hqe
            rcases List.mem_cons.mp he with rfl | hmem
            · rw [hsim]
              rcases not_and_or.mp hcond with hle | hle
              · exact Or.inl (not_lt.mp hle)
              · exact Or.inr (not_lt.mp hle)
            · exact hall e hmem hqe
          · right
            refine ⟨(eid0, p0) :: l₁, eid, p, l₂, by rw [hsplit]; rfl,
              by rw [hscan, heq], hq, hthr, hbs, ?_, h4⟩
            intro e he hqe
            rcases List.mem_cons.mp he with rfl | hmem
            · rw [hsim]
              rcases not_and_or.mp hcond with hle | hle
              · exact lt_of_le_of_lt (not_lt.mp hle) hbs
              · exact lt_of_le_of_lt (not_lt.mp hle) hthr
            · exact h3 e hmem hqe

/-- C6 (amended): `detect_entity` walks the non-expired profiles in
insertion order and selects the profile with the highest similarity
strictly exceeding **both** `similarity_threshold` and 0 (the running best
starts at 0.0, so a similarity of exactly 0 never qualifies even against a
negative threshold), ties resolving to the first encountered; on a match
with a nonempty id it EMA-updates (alpha 0.3) only `movement_speed` and
`height_estimate` of that profile's `typical_features`, increments its
observation count, recomputes its confidence, refreshes `last_seen`, and
returns `(id, false)`; otherwise it appends a fresh profile with count 1
and confidence 0.1 and returns `(new_id, true)`. -/
theorem detect_entity_spec :
    (∀ (m : EphemeralIdentityManager) (f : BehavioralFeatures) (now : ℚ) (eid : String),
        find_matching_entity m f now = some eid →
        ∃ l₁ p l₂, m.entities = l₁ ++ (eid, p) :: l₂ ∧
          p.is_expired now m.expiry_days = false ∧
          ∃ tf, p.typical_features = some tf ∧
            calculate_similarity f tf > m.similarity_threshold ∧
            calculate_similarity f tf > 0 ∧
            (∀ e ∈ l₁, qualifies m.expiry_days now e →
              entry_similarity f e < calculate_similarity f tf) ∧
            (∀ e ∈ l₂, qualifies m.expiry_days now e →
              entry_similarity f e ≤ calculate_similarity f tf)) ∧
    (∀ (m : EphemeralIdentityManager) (f : BehavioralFeatures) (now : ℚ),
        find_matching_entity m f now = none →
        ∀ e ∈ m.entities, qualifies m.expiry_days now e →
          entry_similarity f e ≤ m.similarity_threshold ∨ entry_similarity f e ≤ 0) ∧
    (∀ (m : EphemeralIdentityManager) (f : BehavioralFeatures) (now : ℚ)
        (nid eid : String), find_matching_entity m f now = some eid → eid ≠ "" →
        detect_entity m f now nid =
          ({ m with entities := updateKey eid (fun p => p.update f now) m.entities },
            eid, false)) ∧
    (∀ (p : EntityProfile) (f : BehavioralFeatures) (now : ℚ)
        (old : BehavioralFeatures), p.typical_features = some old →
        (p.update f now).last_seen = now ∧
        (p.update f now).observation_count = p.observation_count + 1 ∧
        (p.update f now).confidence = min 1 (((p.observation_count : ℝ) + 1) / 10) ∧
        (p.update f now).entity_id = p.entity_id ∧
        (p.update f now).first_observed = p.first_observed ∧
        (p.update f now).typical_features = some
          { old with
            movement_speed := 0.3 * f.movement_speed + (1 - 0.3) * old.movement_speed
            height_estimate :=
              0.3 * f.height_estimate + (1 - 0.3) * old.height_estimate }) ∧
    (∀ (m : EphemeralIdentityManager) (f : BehavioralFeatures) (now : ℚ) (nid : String),
        find_matching_entity m f now = none →
        detect_entity m f now nid =
          ({ m with entities := m.entities ++
              [(nid, { entity_id := nid, first_observed := now, last_seen := now,
                       observation_count := 1, typical_features := some f,
                       confidence := 0.1 })] }, nid, true)) := by
  refine ⟨?_, ?_, ?_, ?_, ?_⟩
  · intro m f now eid hfind
    have hfind' : scan_entities m.similarity_threshold m.expiry_days now f
        m.entities none 0 = some eid := hfind
    rcases scan_entities_spec m.similarity_threshold m.expiry_days now f
        m.entities none 0 with ⟨heq, _⟩ |
      ⟨l₁, eid', p, l₂, hsplit, heq, hq, hthr, hbs, h3, h4⟩
    · rw [heq] at hfind'
      exact absurd hfind' (by simp)
    · rw [heq] at hfind'
      obtain rfl : eid' = eid := Option.some.inj hfind'
      obtain ⟨tf, htf⟩ := Option.isSome_iff_exists.mp hq.2
      have htf2 : p.typical_features = some tf := htf
      have hsim : entry_similarity f (eid', p) = calculate_similarity f tf := by
        simp [entry_similarity, htf2]
      rw [hsim] at hthr hbs h3 h4
      exact ⟨l₁, p, l₂, hsplit, hq.1, tf, htf2, hthr, hbs, h3, h4⟩
  · intro m f now hfind e he hqe
    have hfind' : scan_entities m.similarity_threshold m.expiry_days now f
        m.entities none 0 = none := hfind
    rcases scan_entities_spec m.similarity_threshold m.expiry_days now f
        m.entities none 0 with ⟨_, hall⟩ |
      ⟨l₁, eid', p, l₂, hsplit, heq, hq, hthr, hbs, h3, h4⟩
    · exact (hall e he hqe).symm
    · rw [heq] at hfind'
      exact absurd hfind' (by simp)
  · intro m f now nid eid hfind hne
    simp [detect_entity, hfind, hne]
  · intro p f now old htf
    refine ⟨?_, update_observation_count p f now, update_confidence p f now, ?_, ?_, ?_⟩
    · simp [EntityProfile.update]
    · simp [EntityProfile.update]
    · simp [EntityProfile.update]
    · simp [EntityProfile.update, htf]
  · intro m f now nid hfind
    simp [detect_entity, hfind]

/-- Witness for C6: on an empty registry no profile qualifies, so
`detect_entity` creates the fresh profile and reports it as new. -/
theorem detect_entity_spec_witness :
    detect_entity ⟨[], 0.85, 30⟩
        ⟨1.2, 1.75, "morning", "kitchen", "steady"⟩ 0 "n" =
      (⟨[("n", ⟨"n", 0, 0, 1, some ⟨1.2, 1.75, "morning", "kitchen", "steady"⟩, 0.1⟩)],
          0.85, 30⟩, "n", true) :=
  detect_entity_spec.2.2.2.2 ⟨[], 0.85, 30⟩
    ⟨1.2, 1.75, "morning", "kitchen", "steady"⟩ 0 "n" rfl

lemma similarity_far_speed :
    calculate_similarity ⟨6.2, 1.75, "morning", "kitchen", "steady"⟩
      ⟨1.2, 1.75, "morning", "kitchen", "steady"⟩ = 0 := by
  rw [calculate_similarity_eq]
  have hsum : (∑ i : Fin 5,
      (((⟨6.2, 1.75, "morning", "kitchen", "steady"⟩ :
          BehavioralFeatures).to_vector i -
        (⟨1.2, 1.75, "morning", "kitchen", "steady"⟩ :
          BehavioralFeatures).to_vector i) * similarity_weights i) ^ 2) = 100 := by
    simp [BehavioralFeatures.to_vector, similarity_weights, Fin.sum_univ_five,
      Matrix.cons_val_zero, Matrix.cons_val_one, Matrix.head_cons,
      Matrix.cons_val_two, Matrix.cons_val_three, Matrix.cons_val_four,
      Matrix.vecTail, Matrix.vecHead]
    norm_num
  rw [hsum]
  rw [show Real.sqrt 100 = 10 by
    rw [show (100:ℝ) = 10 ^ 2 by norm_num, Real.sqrt_sq (by norm_num : (0:ℝ) ≤ 10)]]
  norm_num

/-- Counterexample for C6 as stated: in a registry constructed with
`similarity_threshold = -1` holding one profile at behavioral distance 10
(similarity exactly 0), the query's similarity 0 strictly exceeds the
threshold, so the claim demands a match — but the loop's running best
starts at 0.0 and is only beaten strictly, so the code creates a new
entity instead. -/
theorem detect_entity_threshold_counterexample :
    calculate_similarity ⟨6.2, 1.75, "morning", "kitchen", "steady"⟩
      ⟨1.2, 1.75, "morning", "kitchen", "steady"⟩ = 0 ∧
    ((0:ℝ) > (⟨[("e", ⟨"e", 0, 0, 1,
        some ⟨1.2, 1.75, "morning", "kitchen", "steady"⟩, 0.1⟩)], -1, 30⟩ :
        EphemeralIdentityManager).similarity_threshold) ∧
    (detect_entity ⟨[("e", ⟨"e", 0, 0, 1,
          some ⟨1.2, 1.75, "morning", "kitchen", "steady"⟩, 0.1⟩)], -1, 30⟩
        ⟨6.2, 1.75, "morning", "kitchen", "steady"⟩ 0 "n").2 = ("n", true) := by
  have hexp : (⟨"e", 0, 0, 1, some ⟨1.2, 1.75, "morning", "kitchen", "steady"⟩, 0.1⟩ :
      EntityProfile).is_expired 0 30 = false := by
    rw [EntityProfile.is_expired]
    norm_num [elapsed_days]
  have hfind : find_matching_entity ⟨[("e", ⟨"e", 0, 0, 1,
        some ⟨1.2, 1.75, "morning", "kitchen", "steady"⟩, 0.1⟩)], -1, 30⟩
      ⟨6.2, 1.75, "morning", "kitchen", "steady"⟩ 0 = none := by
    show scan_entities (-1) 30 0 ⟨6.2, 1.75, "morning", "kitchen", "steady"⟩
      [("e", ⟨"e", 0, 0, 1, some ⟨1.2, 1.75, "morning", "kitchen", "steady"⟩, 0.1⟩)]
      none 0 = none
    simp [scan_entities, hexp, similarity_far_speed]
  exact ⟨similarity_far_speed, by norm_num, by simp [detect_entity, hfind]⟩
